import Mathlib

/-!
# schematic: the command-line driver

A shallow embedding of `schematic.go` (package `main`).  The file holds one
function, `main`, which checks the argument count, opens the named file,
decodes one JSON value from it into a `schema.Schema`, calls `Generate` on it
and prints the generated code.  Every failure ends in `log.Fatal`.

The collaborators that the driver calls but does not define (`os.Open`, the
unmarshalling of a scanned JSON value into `schema.Schema`, `Schema.Generate`,
the text of error values) are fields of a `World`.  The parts of the Go
standard library whose behaviour the driver relies on (`log`, `fmt.Println`,
`os.Exit`, `defer`/`recover`, the value scanner of `encoding/json`) are
modelled after their documented behaviour.

Go strings and byte slices are byte sequences; here a `String` stands for one,
a `Char` for a byte.  The only byte the driver and its library calls look at
is the newline, which is a single byte in UTF-8.
-/

namespace Schematic

/-! ## The JSON value scanner of `encoding/json` (`scanner.go`) -/

/-- Return codes of the scanner's step function (the `scan...` constants). -/
inductive ScanCode where
  | scanContinue
  | scanBeginLiteral
  | scanBeginObject
  | scanObjectKey
  | scanObjectValue
  | scanEndObject
  | scanBeginArray
  | scanArrayValue
  | scanEndArray
  | scanSkipSpace
  | scanEnd
  | scanError
  deriving DecidableEq, Repr

/-- Entries of the scanner's parse-state stack (the `parse...` constants). -/
inductive ParseState where
  | parseObjectKey
  | parseObjectValue
  | parseArrayValue
  deriving DecidableEq, Repr

/-- The scanner's current step function, one constructor per `state...`
function of `scanner.go`. -/
inductive StepFn where
  | stateBeginValue
  | stateBeginValueOrEmpty
  | stateBeginStringOrEmpty
  | stateBeginString
  | stateEndValue
  | stateEndTop
  | stateInString
  | stateInStringEsc
  | stateInStringEscU
  | stateInStringEscU1
  | stateInStringEscU12
  | stateInStringEscU123
  | stateNeg
  | state1
  | state0
  | stateDot
  | stateDot0
  | stateE
  | stateESign
  | stateE0
  | stateT
  | stateTr
  | stateTru
  | stateF
  | stateFa
  | stateFal
  | stateFals
  | stateN
  | stateNu
  | stateNul
  | stateError
  deriving DecidableEq, Repr

/-- A `*json.SyntaxError`, kept as its parts: the offending byte and the
context text (`"invalid character " + quoteChar(c) + " " + context`), or the
end-of-input message.  The byte offset is not part of the error text and is
left out. -/
inductive SyntaxErr where
  | invalidCharacter (c : Char) (context : String)
  | unexpectedEndOfJSONInput
  deriving DecidableEq, Repr

/-- The `scanner` struct.  `parseState` is a stack; Go pushes at the end of a
slice, here the top is the head of the list. -/
structure Scanner where
  step : StepFn
  endTop : Bool
  parseState : List ParseState
  err : Option SyntaxErr
  deriving DecidableEq, Repr

/-- `scanner.reset`. -/
def Scanner.reset : Scanner :=
  { step := .stateBeginValue, endTop := false, parseState := [], err := none }

/-- `isSpace`. -/
def isSpace (c : Char) : Bool :=
  c == ' ' || c == '\t' || c == '\r' || c == '\n'

/-- The digit test `'0' <= c && c <= '9'`. -/
def isDigit (c : Char) : Bool :=
  '0'.toNat ≤ c.toNat && c.toNat ≤ '9'.toNat

/-- The hexadecimal digit test of the `\u` escape states. -/
def isHex (c : Char) : Bool :=
  isDigit c || ('a'.toNat ≤ c.toNat && c.toNat ≤ 'f'.toNat)
    || ('A'.toNat ≤ c.toNat && c.toNat ≤ 'F'.toNat)

/-- `maxNestingDepth`. -/
def maxNestingDepth : Nat := 10000

/-- `scanner.error`: record a syntax error and move to `stateError`. -/
def Scanner.error (s : Scanner) (c : Char) (context : String) : Scanner × ScanCode :=
  ({ s with step := .stateError, err := some (.invalidCharacter c context) }, .scanError)

/-- `scanner.pushParseState`. -/
def Scanner.pushParseState (s : Scanner) (c : Char) (newParseState : ParseState)
    (successState : ScanCode) : Scanner × ScanCode :=
  let s1 := { s with parseState := newParseState :: s.parseState }
  if s1.parseState.length ≤ maxNestingDepth then (s1, successState)
  else s1.error c "exceeded max depth"

/-- `scanner.popParseState`. -/
def Scanner.popParseState (s : Scanner) : Scanner :=
  let rest := s.parseState.tail
  if rest.length = 0 then { s with parseState := rest, step := .stateEndTop, endTop := true }
  else { s with parseState := rest, step := .stateEndValue }

/-- `stateEndTop`: after the top-level value; a non-space byte is recorded as
an error "on the next call", the return code is `scanEnd` either way. -/
def stateEndTop (s : Scanner) (c : Char) : Scanner × ScanCode :=
  if !isSpace c then ((s.error c "after top-level value").1, .scanEnd)
  else (s, .scanEnd)

/-- `stateEndValue`. -/
def stateEndValue (s : Scanner) (c : Char) : Scanner × ScanCode :=
  match s.parseState with
  | [] => stateEndTop { s with step := .stateEndTop, endTop := true } c
  | ps :: rest =>
    if isSpace c then ({ s with step := .stateEndValue }, .scanSkipSpace)
    else match ps with
      | .parseObjectKey =>
        if c == ':' then
          ({ s with parseState := .parseObjectValue :: rest, step := .stateBeginValue },
            .scanObjectKey)
        else s.error c "after object key"
      | .parseObjectValue =>
        if c == ',' then
          ({ s with parseState := .parseObjectKey :: rest, step := .stateBeginString },
            .scanObjectValue)
        else if c == '}' then (s.popParseState, .scanEndObject)
        else s.error c "after object key:value pair"
      | .parseArrayValue =>
        if c == ',' then ({ s with step := .stateBeginValue }, .scanArrayValue)
        else if c == ']' then (s.popParseState, .scanEndArray)
        else s.error c "after array element"

/-- `stateBeginValue`. -/
def stateBeginValue (s : Scanner) (c : Char) : Scanner × ScanCode :=
  if isSpace c then (s, .scanSkipSpace)
  else if c == '{' then
    Scanner.pushParseState { s with step := .stateBeginStringOrEmpty } c .parseObjectKey
      .scanBeginObject
  else if c == '[' then
    Scanner.pushParseState { s with step := .stateBeginValueOrEmpty } c .parseArrayValue
      .scanBeginArray
  else if c == '"' then ({ s with step := .stateInString }, .scanBeginLiteral)
  else if c == '-' then ({ s with step := .stateNeg }, .scanBeginLiteral)
  else if c == '0' then ({ s with step := .state0 }, .scanBeginLiteral)
  else if c == 't' then ({ s with step := .stateT }, .scanBeginLiteral)
  else if c == 'f' then ({ s with step := .stateF }, .scanBeginLiteral)
  else if c == 'n' then ({ s with step := .stateN }, .scanBeginLiteral)
  else if '1'.toNat ≤ c.toNat && c.toNat ≤ '9'.toNat then
    ({ s with step := .state1 }, .scanBeginLiteral)
  else s.error c "looking for beginning of value"

/-- `stateBeginValueOrEmpty`. -/
def stateBeginValueOrEmpty (s : Scanner) (c : Char) : Scanner × ScanCode :=
  if isSpace c then (s, .scanSkipSpace)
  else if c == ']' then stateEndValue s c
  else stateBeginValue s c

/-- `stateBeginString`. -/
def stateBeginString (s : Scanner) (c : Char) : Scanner × ScanCode :=
  if isSpace c then (s, .scanSkipSpace)
  else if c == '"' then ({ s with step := .stateInString }, .scanBeginLiteral)
  else s.error c "looking for beginning of object key string"

/-- `stateBeginStringOrEmpty`. -/
def stateBeginStringOrEmpty (s : Scanner) (c : Char) : Scanner × ScanCode :=
  if isSpace c then (s, .scanSkipSpace)
  else if c == '}' then
    stateEndValue { s with parseState := .parseObjectValue :: s.parseState.tail } c
  else stateBeginString s c

/-- `stateInString`. -/
def stateInString (s : Scanner) (c : Char) : Scanner × ScanCode :=
  if c == '"' then ({ s with step := .stateEndValue }, .scanContinue)
  else if c == '\\' then ({ s with step := .stateInStringEsc }, .scanContinue)
  else if c.toNat < 0x20 then s.error c "in string literal"
  else (s, .scanContinue)

/-- `stateInStringEsc`. -/
def stateInStringEsc (s : Scanner) (c : Char) : Scanner × ScanCode :=
  if c == 'b' || c == 'f' || c == 'n' || c == 'r' || c == 't' || c == '\\' || c == '/'
      || c == '"' then
    ({ s with step := .stateInString }, .scanContinue)
  else if c == 'u' then ({ s with step := .stateInStringEscU }, .scanContinue)
  else s.error c "in string escape code"

/-- The four `stateInStringEscU...` functions: one hexadecimal digit each,
then on to `next`. -/
def stateHexDigit (next : StepFn) (s : Scanner) (c : Char) : Scanner × ScanCode :=
  if isHex c then ({ s with step := next }, .scanContinue)
  else s.error c "in \\u hexadecimal character escape"

/-- `state0`: after a leading `0`, or after the integer part. -/
def state0 (s : Scanner) (c : Char) : Scanner × ScanCode :=
  if c == '.' then ({ s with step := .stateDot }, .scanContinue)
  else if c == 'e' || c == 'E' then ({ s with step := .stateE }, .scanContinue)
  else stateEndValue s c

/-- `state1`: inside the integer part. -/
def state1 (s : Scanner) (c : Char) : Scanner × ScanCode :=
  if isDigit c then ({ s with step := .state1 }, .scanContinue)
  else state0 s c

/-- `stateNeg`. -/
def stateNeg (s : Scanner) (c : Char) : Scanner × ScanCode :=
  if c == '0' then ({ s with step := .state0 }, .scanContinue)
  else if '1'.toNat ≤ c.toNat && c.toNat ≤ '9'.toNat then
    ({ s with step := .state1 }, .scanContinue)
  else s.error c "in numeric literal"

/-- `stateDot`. -/
def stateDot (s : Scanner) (c : Char) : Scanner × ScanCode :=
  if isDigit c then ({ s with step := .stateDot0 }, .scanContinue)
  else s.error c "after decimal point in numeric literal"

/-- `stateDot0`. -/
def stateDot0 (s : Scanner) (c : Char) : Scanner × ScanCode :=
  if isDigit c then (s, .scanContinue)
  else if c == 'e' || c == 'E' then ({ s with step := .stateE }, .scanContinue)
  else stateEndValue s c

/-- `stateESign`. -/
def stateESign (s : Scanner) (c : Char) : Scanner × ScanCode :=
  if isDigit c then ({ s with step := .stateE0 }, .scanContinue)
  else s.error c "in exponent of numeric literal"

/-- `stateE`. -/
def stateE (s : Scanner) (c : Char) : Scanner × ScanCode :=
  if c == '+' || c == '-' then ({ s with step := .stateESign }, .scanContinue)
  else stateESign s c

/-- `stateE0`. -/
def stateE0 (s : Scanner) (c : Char) : Scanner × ScanCode :=
  if isDigit c then (s, .scanContinue)
  else stateEndValue s c

/-- The states inside `true`, `false` and `null`: the byte must be `want`. -/
def stateLiteral (want : Char) (next : StepFn) (context : String) (s : Scanner) (c : Char) :
    Scanner × ScanCode :=
  if c == want then ({ s with step := next }, .scanContinue)
  else s.error c context

/-- The call `s.step(s, c)`: dispatch on the current step function. -/
def Scanner.run (s : Scanner) (c : Char) : Scanner × ScanCode :=
  match s.step with
  | .stateBeginValue => stateBeginValue s c
  | .stateBeginValueOrEmpty => stateBeginValueOrEmpty s c
  | .stateBeginStringOrEmpty => stateBeginStringOrEmpty s c
  | .stateBeginString => stateBeginString s c
  | .stateEndValue => stateEndValue s c
  | .stateEndTop => stateEndTop s c
  | .stateInString => stateInString s c
  | .stateInStringEsc => stateInStringEsc s c
  | .stateInStringEscU => stateHexDigit .stateInStringEscU1 s c
  | .stateInStringEscU1 => stateHexDigit .stateInStringEscU12 s c
  | .stateInStringEscU12 => stateHexDigit .stateInStringEscU123 s c
  | .stateInStringEscU123 => stateHexDigit .stateInString s c
  | .stateNeg => stateNeg s c
  | .state1 => state1 s c
  | .state0 => state0 s c
  | .stateDot => stateDot s c
  | .stateDot0 => stateDot0 s c
  | .stateE => stateE s c
  | .stateESign => stateESign s c
  | .stateE0 => stateE0 s c
  | .stateT => stateLiteral 'r' .stateTr "in literal true (expecting \x27r\x27)" s c
  | .stateTr => stateLiteral 'u' .stateTru "in literal true (expecting \x27u\x27)" s c
  | .stateTru => stateLiteral 'e' .stateEndValue "in literal true (expecting \x27e\x27)" s c
  | .stateF => stateLiteral 'a' .stateFa "in literal false (expecting \x27a\x27)" s c
  | .stateFa => stateLiteral 'l' .stateFal "in literal false (expecting \x27l\x27)" s c
  | .stateFal => stateLiteral 's' .stateFals "in literal false (expecting \x27s\x27)" s c
  | .stateFals => stateLiteral 'e' .stateEndValue "in literal false (expecting \x27e\x27)" s c
  | .stateN => stateLiteral 'u' .stateNu "in literal null (expecting \x27u\x27)" s c
  | .stateNu => stateLiteral 'l' .stateNul "in literal null (expecting \x27l\x27)" s c
  | .stateNul => stateLiteral 'l' .stateEndValue "in literal null (expecting \x27l\x27)" s c
  | .stateError => (s, .scanError)

/-- `scanner.eof`: tell the scanner that the input has ended. -/
def Scanner.eof (s : Scanner) : Scanner × ScanCode :=
  if s.err.isSome then (s, .scanError)
  else if s.endTop then (s, .scanEnd)
  else
    let s1 := (s.run ' ').1
    if s1.endTop then (s1, .scanEnd)
    else if s1.err.isNone then
      ({ s1 with err := some .unexpectedEndOfJSONInput }, .scanError)
    else (s1, .scanError)

/-- The loop of `checkValid`: feed every byte to the scanner, then `eof`.
The result is the error, `none` when the data is one valid JSON value. -/
def checkValidFrom (s : Scanner) : List Char → Option SyntaxErr
  | [] =>
    let r := s.eof
    if r.2 = .scanError then r.1.err else none
  | c :: cs =>
    let r := s.run c
    if r.2 = .scanError then r.1.err else checkValidFrom r.1 cs

/-- `json.Valid`: the data is a valid JSON encoding (one value, with nothing
but white space around it). -/
def valid (data : String) : Bool :=
  (checkValidFrom Scanner.reset data.data).isNone

/-- How `Decoder.readValue` fails. -/
inductive ReadError where
  | syntaxError (e : Option SyntaxErr)
  | eof
  | unexpectedEOF
  deriving DecidableEq, Repr

/-- `nonSpace`: the buffer holds a byte that is not white space. -/
def nonSpace (b : List Char) : Bool :=
  b.any fun c => !isSpace c

/-- The scanning loop of `Decoder.readValue` over the whole input `buf`, with
`n` bytes scanned so far and `rest` still to come.  The result is the length
of the encoding of the next JSON value.  The decoder refills its buffer from
the file as it goes; the bytes it sees are those of the file in order, so the
loop runs over the content directly. -/
def readValueFrom (buf : List Char) (s : Scanner) (n : Nat) : List Char → Except ReadError Nat
  | [] =>
    if (s.run ' ').2 = .scanEnd then .ok n
    else if nonSpace buf then .error .unexpectedEOF
    else .error .eof
  | c :: rest =>
    let r := s.run c
    match r.2 with
    | .scanEnd => .ok n
    | .scanEndObject | .scanEndArray =>
      let r1 := stateEndValue r.1 ' '
      if r1.2 = .scanEnd then .ok (n + 1) else readValueFrom buf r1.1 (n + 1) rest
    | .scanError => .error (.syntaxError r.1.err)
    | _ => readValueFrom buf r.1 (n + 1) rest

/-- `Decoder.readValue` on a fresh decoder: the encoding of the first JSON
value of the stream (as a prefix of the content), or the read error. -/
def readValue (content : String) : Except ReadError String :=
  match readValueFrom content.data Scanner.reset 0 content.data with
  | .ok n => .ok (String.mk (content.data.take n))
  | .error e => .error e

/-! ## The world outside the driver -/

/-- How a call into a collaborator ends: it returns a value, returns an error
value, or panics.  A panic carries the value handed to `panic`, `none` when
that value is nil. -/
inductive Outcome (ε ρ α : Type) where
  | ok (a : α)
  | err (e : ε)
  | fault (r : Option ρ)

/-- Everything `main` depends on and does not define.  `Schema` is
`schema.Schema`, `Err` the Go error values, `Fault` the non-nil values a panic
can carry (a runtime error, or whatever was handed to `panic`).  The
repository has no `go.mod`: built as it is, or with a Go before 1.21,
`panic(nil)` reaches `recover()` as nil, which is `Outcome.fault none`.  In a
module that asks for Go 1.21 or later it reaches `recover()` as a
`*runtime.PanicNilError`, a non-nil value, and `Outcome.fault none` does not
arise. -/
structure World (Schema Err Fault : Type) where
  /-- The argument list `os.Args`, program name first. -/
  args : List String
  /-- The file system as `os.Open` sees it: the content of the file at a
  path, or the error of the failed open. -/
  osOpen : String → Except Err String
  /-- The error values `Decoder.readValue` returns (`*json.SyntaxError`,
  `io.EOF`, `io.ErrUnexpectedEOF`). -/
  readErr : ReadError → Err
  /-- The unmarshalling of one scanned JSON value into a `schema.Schema`. -/
  unmarshal : String → Outcome Err Fault Schema
  /-- The method `Schema.Generate`. -/
  generate : Schema → Outcome Err Fault String
  /-- The text `fmt.Sprint` gives for an error value (its `Error()`). -/
  errText : Err → String
  /-- The text `fmt.Sprint` gives for a recovered panic value. -/
  faultText : Fault → String
  /-- The header (time stamp, file and line) the standard logger writes in
  front of a message when its flags are not zero. -/
  logHeader : Nat → String
  /-- What the Go runtime prints for a panic nobody recovered (`panic: ...`
  and the goroutine traces). -/
  crashReport : Option Fault → String

/-! ## The process -/

/-- An open file: `*os.File`, reading from the start of `content`. -/
structure File where
  name : String
  content : String
  deriving DecidableEq, Repr

/-- The calls `main` makes, in the order it makes them (a ghost record). -/
inductive Call where
  | osOpen (name : String)
  | decode
  | generate
  | println
  | logFatal
  deriving DecidableEq, Repr

/-- The state of the process. -/
structure Proc where
  /-- Bytes written to standard output. -/
  stdout : String
  /-- Bytes written to standard error. -/
  stderr : String
  /-- The flags of the standard logger. -/
  logFlags : Nat
  /-- The files that are open. -/
  openFiles : List File
  /-- The calls made so far. -/
  trace : List Call
  deriving DecidableEq, Repr

/-- `log.LstdFlags`, the initial flags of the standard logger
(`Ldate | Ltime`). -/
def LstdFlags : Nat := 3

/-- The process as it starts. -/
def Proc.start : Proc :=
  { stdout := "", stderr := "", logFlags := LstdFlags, openFiles := [], trace := [] }

/-- Where control is after a piece of Go code has run: it went on with a
value, the process exited through `os.Exit`, or a panic is unwinding. -/
inductive Ctl (ρ α : Type) where
  | ret (a : α) (p : Proc)
  | exit (code : Nat) (p : Proc)
  | panicking (r : Option ρ) (p : Proc)

/-- A piece of Go code. -/
def Go (ρ α : Type) : Type := Proc → Ctl ρ α

/-- Sequencing: the rest runs only when the first part went on. -/
def Go.bind {ρ α β : Type} (m : Go ρ α) (k : α → Go ρ β) : Go ρ β := fun p =>
  match m p with
  | .ret a p1 => k a p1
  | .exit c p1 => .exit c p1
  | .panicking r p1 => .panicking r p1

instance {ρ : Type} : Monad (Go ρ) where
  pure a := fun p => .ret a p
  bind := Go.bind

/-- `log.SetFlags`. -/
def logSetFlags {ρ : Type} (flag : Nat) : Go ρ Unit := fun p =>
  .ret () { p with logFlags := flag }

/-- The bytes `Logger.Output` writes for the message `s`: the header, the
message, and a newline if the message does not already end in one
(`len(s) == 0 || s[len(s)-1] != '\n'`).  The logger has no prefix set; with
flags zero the header is empty. -/
def logOutput (header s : String) : String :=
  header ++ s ++ (if s.data.getLast? = some '\n' then "" else "\n")

/-- `os.Exit`: the process ends at once; deferred functions are not run. -/
def osExit {ρ α : Type} (code : Nat) : Go ρ α := fun p =>
  .exit code p

/-- `log.Fatal` on one operand whose `fmt.Sprint` text is `s`: `Output` to
standard error, then `os.Exit(1)`. -/
def logFatal {Schema Err Fault α : Type} (w : World Schema Err Fault) (s : String) :
    Go Fault α := fun p =>
  let header := if p.logFlags = 0 then "" else w.logHeader p.logFlags
  osExit 1 { p with stderr := p.stderr ++ logOutput header s, trace := p.trace ++ [.logFatal] }

/-- The call of a collaborator from Go code: a returned error is a value, a
panic starts unwinding. -/
def call {ε ρ α : Type} (o : Outcome ε ρ α) : Go ρ (Except ε α) := fun p =>
  match o with
  | .ok a => .ret (.ok a) p
  | .err e => .ret (.error e) p
  | .fault r => .panicking r p

/-- `os.Open`. -/
def osOpen {Schema Err Fault : Type} (w : World Schema Err Fault) (name : String) :
    Go Fault (Except Err File) := fun p =>
  let p1 := { p with trace := p.trace ++ [.osOpen name] }
  match w.osOpen name with
  | .ok content =>
    let f : File := { name := name, content := content }
    .ret (.ok f) { p1 with openFiles := p1.openFiles ++ [f] }
  | .error e => .ret (.error e) p1

/-- What `json.NewDecoder(f).Decode(&s)` does with the content of `f`:
`readValue` takes the encoding of the first JSON value off the stream, then
that value is unmarshalled.  Nothing after the first value is looked at.  The
decoder is fresh, so the token-state checks at the start of `Decode` pass;
reads of the open file deliver its content and then end of file. -/
def decodeContent {Schema Err Fault : Type} (w : World Schema Err Fault) (content : String) :
    Outcome Err Fault Schema :=
  match readValue content with
  | .error e => .err (w.readErr e)
  | .ok v => w.unmarshal v

/-- The statements `d := json.NewDecoder(f)` and `d.Decode(&s)`. -/
def decoderDecode {Schema Err Fault : Type} (w : World Schema Err Fault) (f : File) :
    Go Fault (Except Err Schema) := fun p =>
  call (decodeContent w f.content) { p with trace := p.trace ++ [.decode] }

/-- The call `s.Generate()`. -/
def generate {Schema Err Fault : Type} (w : World Schema Err Fault) (s : Schema) :
    Go Fault (Except Err String) := fun p =>
  call (w.generate s) { p with trace := p.trace ++ [.generate] }

/-- `fmt.Println` on one string operand: the string and a newline go to
standard output. -/
def fmtPrintln {ρ : Type} (s : String) : Go ρ Unit := fun p =>
  .ret () { p with stdout := p.stdout ++ s ++ "\n", trace := p.trace ++ [.println] }

/-- A function body with one deferred function that starts by calling
`recover()`; the argument of `deferred` is what `recover()` returns, `none`
for nil.  When the body returns, the deferred function runs and `recover()`
gives nil; when the body panics, it runs, `recover()` gives the value of the
panic (nil for a panic with a nil value) and the panic stops there; when the
body ends in `os.Exit`, it does not run. -/
def withDefer {ρ : Type} (deferred : Option ρ → Go ρ Unit) (body : Go ρ Unit) : Go ρ Unit :=
  fun p =>
    match body p with
    | .ret _ p1 => deferred none p1
    | .exit c p1 => .exit c p1
    | .panicking r p1 => deferred r p1

/-- The deferred function of `main`:
`if r := recover(); r != nil { log.Fatal(r) }`. -/
def recoverAndReport {Schema Err Fault : Type} (w : World Schema Err Fault) :
    Option Fault → Go Fault Unit
  | some r => logFatal w (w.faultText r)
  | none => pure ()

/-- The function `main` of `schematic.go`. -/
def main {Schema Err Fault : Type} (w : World Schema Err Fault) : Go Fault Unit :=
  withDefer (recoverAndReport w) do
    logSetFlags 0
    if w.args.length ≠ 2 then
      logFatal w "schematic: missing schema file"
    -- `os.Args[1]`: in range, the length is 2 here
    match ← osOpen w (w.args.getD 1 "") with
    | .error err => logFatal w (w.errText err)
    | .ok f =>
      match ← decoderDecode w f with
      | .error err => logFatal w (w.errText err)
      | .ok s =>
        match ← generate w s with
        | .error err => logFatal w (w.errText err)
        | .ok code => fmtPrintln code

/-- What is left of a process when it has ended. -/
structure Final where
  exitCode : Nat
  stdout : String
  stderr : String
  openFiles : List File
  trace : List Call
  deriving DecidableEq, Repr

/-- The Go runtime around `main`: the process ends with status 0 when `main`
returns, with the status given to `os.Exit`, and with status 2 and a crash
report on standard error when a panic leaves `main`. -/
def run {Schema Err Fault : Type} (w : World Schema Err Fault) : Final :=
  match main w Proc.start with
  | .ret _ p => ⟨0, p.stdout, p.stderr, p.openFiles, p.trace⟩
  | .exit c p => ⟨c, p.stdout, p.stderr, p.openFiles, p.trace⟩
  | .panicking r p => ⟨2, p.stdout, p.stderr ++ w.crashReport r, p.openFiles, p.trace⟩

/-! ## Vocabulary of the statements -/

/-- The line the logger writes for the message `s` once its flags are zero:
the message, and a newline unless the message already ends in one. -/
def logLine (s : String) : String :=
  s ++ (if s.data.getLast? = some '\n' then "" else "\n")

/-- A text is a single line: it holds exactly one newline, its last byte. -/
def singleLine (s : String) : Bool :=
  s.data.count '\n' == 1 && s.data.getLast? == some '\n'

/-- The exit status and the standard output of a run, read off what the
world returns at each step. -/
def exitAndOutput {Schema Err Fault : Type} (w : World Schema Err Fault) : Nat × String :=
  match w.args with
  | [_, path] =>
    match (w.osOpen path).toOption with
    | none => (1, "")
    | some content =>
      match readValue content with
      | .error _ => (1, "")
      | .ok v =>
        match w.unmarshal v with
        | .err _ => (1, "")
        | .fault (some _) => (1, "")
        | .fault none => (0, "")
        | .ok s =>
          match w.generate s with
          | .err _ => (1, "")
          | .fault (some _) => (1, "")
          | .fault none => (0, "")
          | .ok code => (0, code ++ "\n")
  | _ => (1, "")

/-- In the run of `w` the decoder or `Generate` panics with a nil value. -/
def panicsWithNil {Schema Err Fault : Type} (w : World Schema Err Fault) : Prop :=
  ∃ prog path content, w.args = [prog, path] ∧ w.osOpen path = .ok content ∧
    (decodeContent w content = .fault none ∨
      ∃ s, decodeContent w content = .ok s ∧ w.generate s = .fault none)

/-- The state of the scanner at the head of the loop of `readValue`: no error
recorded, the top-level value not yet complete, and inside an array or object
when the step function says so. -/
def LoopInv (s : Scanner) : Prop :=
  s.err = none ∧ s.step ≠ .stateEndTop ∧
    (s.step = .stateBeginValueOrEmpty ∨ s.step = .stateBeginStringOrEmpty → s.parseState ≠ [])

/-- What one step of the scanner can give, started with the parse stack `ps`
in a state of the loop: an error; the end of the top-level value, seen one
byte late; the end of an object or array, which either completes the
top-level value or leaves the scanner after a value; or a step inside the
value, which keeps the loop state. -/
def StepOk (ps : List ParseState) (r : Scanner × ScanCode) : Prop :=
  r.2 = .scanError ∨
    (r.2 = .scanEnd ∧ ps = [] ∧ r.1.endTop = true) ∨
    ((r.2 = .scanEndObject ∨ r.2 = .scanEndArray) ∧ r.1.err = none ∧
      ((r.1.parseState = [] ∧ r.1.endTop = true) ∨
        (r.1.parseState ≠ [] ∧ r.1.step = .stateEndValue))) ∨
    (r.2 ≠ .scanError ∧ r.2 ≠ .scanEnd ∧ r.2 ≠ .scanEndObject ∧ r.2 ≠ .scanEndArray ∧
      LoopInv r.1)

/-! ## Concrete worlds -/

/-- A world in which every step succeeds: one argument, a file holding an
empty JSON object, a generator that returns a package clause. -/
def worldOk : World Unit String String :=
  { args := ["schematic", "schema.json"]
    osOpen := fun name => if name = "schema.json" then .ok "\x7b\x7d\n"
      else .error ("open " ++ name ++ ": no such file or directory")
    readErr := fun _ => "invalid JSON"
    unmarshal := fun _ => .ok ()
    generate := fun _ => .ok "package main"
    errText := fun e => e
    faultText := fun r => r
    logHeader := fun _ => "2014/01/01 00:00:00 "
    crashReport := fun r => "panic: " ++ r.getD "nil" ++ "\n\ngoroutine 1 [running]:\n" }

/-- The world `worldOk` run without an argument. -/
def worldNoArgument : World Unit String String :=
  { worldOk with args := ["schematic"] }

/-- The world `worldOk` with no file at the named path. -/
def worldNoFile : World Unit String String :=
  { worldOk with
    osOpen := fun name => .error ("open " ++ name ++ ": no such file or directory") }

/-- The world `worldOk` with a file that stops in the middle of an object. -/
def worldTruncated : World Unit String String :=
  { worldOk with osOpen := fun _ => .ok "\x7b\"title\": " }

/-- The world `worldOk` with a file that holds an empty JSON object followed
by text that is not JSON. -/
def worldTrailingText : World Unit String String :=
  { worldOk with osOpen := fun _ => .ok "\x7b\x7d this is not JSON" }

/-- The world `worldOk` with a generator that returns an error whose text has
two lines. -/
def worldGenerateError : World Unit String String :=
  { worldOk with generate := fun _ => .err "schema: no title\nschema: no properties" }

/-- The world `worldOk` with a generator that returns an error whose text is
one line. -/
def worldGenerateErrorOneLine : World Unit String String :=
  { worldOk with generate := fun _ => .err "schema: no title" }

/-- The world `worldOk` with a generator that panics with a value whose text
has two lines. -/
def worldGeneratePanic : World Unit String String :=
  { worldOk with generate := fun _ => .fault (some "template: bad input\nat line 3") }

/-- The world `worldOk` with a generator that panics with a runtime error. -/
def worldGenerateRuntimeError : World Unit String String :=
  { worldOk with
    generate := fun _ =>
      .fault (some "runtime error: index out of range [5] with length 3") }

/-- The world `worldOk` with a generator that panics with a nil value. -/
def worldGeneratePanicNil : World Unit String String :=
  { worldOk with generate := fun _ => .fault none }

/-- The world `worldOk` with an unmarshalling that panics with a nil value. -/
def worldDecodePanicNil : World Unit String String :=
  { worldOk with unmarshal := fun _ => .fault none }

/-- The world `worldOk` with other error texts. -/
def worldOkOtherTexts : World Unit String String :=
  { worldOk with errText := fun e => "error: " ++ e, faultText := fun r => "fault: " ++ r }

/-! ## The scanner in the loop of `readValue` -/

theorem stepOk_error (ps : List ParseState) (s : Scanner) (c : Char) (context : String) :
    StepOk ps (s.error c context) :=
  Or.inl rfl

theorem stepOk_inside (ps : List ParseState) (s : Scanner) (code : ScanCode)
    (hcode : code ≠ .scanError ∧ code ≠ .scanEnd ∧ code ≠ .scanEndObject ∧
      code ≠ .scanEndArray)
    (h : LoopInv s) : StepOk ps (s, code) :=
  Or.inr (Or.inr (Or.inr ⟨hcode.1, hcode.2.1, hcode.2.2.1, hcode.2.2.2, h⟩))

theorem stepOk_of_cons (p : ParseState) (rest ps : List ParseState) (r : Scanner × ScanCode)
    (h : StepOk (p :: rest) r) : StepOk ps r := by
  rcases h with h | h | h | h
  · exact Or.inl h
  · exact absurd h.2.1 (List.cons_ne_nil p rest)
  · exact Or.inr (Or.inr (Or.inl h))
  · exact Or.inr (Or.inr (Or.inr h))

theorem stepOk_stateEndValue (s : Scanner) (c : Char) (h : s.err = none) :
    StepOk s.parseState (stateEndValue s c) := by
  obtain ⟨step, endTop, ps, err⟩ := s
  simp only at h
  subst h
  generalize hr : stateEndValue ⟨step, endTop, ps, none⟩ c = r
  rcases ps with _ | ⟨p, rest⟩
  · simp only [stateEndValue, stateEndTop, Scanner.error] at hr
    split_ifs at hr <;> subst hr <;> simp [StepOk]
  · rcases rest with _ | ⟨q, rest⟩ <;> cases p <;>
      simp only [stateEndValue, Scanner.error, Scanner.popParseState, List.tail_cons,
        List.length_nil, List.length_cons] at hr <;>
      split_ifs at hr <;> first | contradiction | (subst hr; simp [StepOk, LoopInv])

/-- A step that changes nothing but the step function, to one that is neither
the end of the top-level value nor the start of an array or object. -/
theorem stepOk_goto (s : Scanner) (next : StepFn) (code : ScanCode) (h : LoopInv s)
    (hnext : next ≠ .stateEndTop ∧ next ≠ .stateBeginValueOrEmpty ∧
      next ≠ .stateBeginStringOrEmpty)
    (hcode : code ≠ .scanError ∧ code ≠ .scanEnd ∧ code ≠ .scanEndObject ∧
      code ≠ .scanEndArray) :
    StepOk s.parseState ({ s with step := next }, code) := by
  apply stepOk_inside _ _ _ hcode
  refine ⟨h.1, hnext.1, ?_⟩
  intro hc
  rcases hc with hc | hc
  · exact absurd hc hnext.2.1
  · exact absurd hc hnext.2.2

theorem stepOk_pushParseState (s : Scanner) (c : Char) (p : ParseState) (code : ScanCode)
    (h : s.err = none) (hstep : s.step ≠ .stateEndTop)
    (hcode : code ≠ .scanError ∧ code ≠ .scanEnd ∧ code ≠ .scanEndObject ∧
      code ≠ .scanEndArray) :
    StepOk s.parseState (s.pushParseState c p code) := by
  unfold Scanner.pushParseState
  simp only
  split_ifs
  · apply stepOk_inside _ _ _ hcode
    exact ⟨h, hstep, fun _ => List.cons_ne_nil _ _⟩
  · exact stepOk_error _ _ _ _

set_option maxHeartbeats 1000000 in
theorem stepOk_stateBeginValue (s : Scanner) (c : Char) (h : LoopInv s) :
    StepOk s.parseState (stateBeginValue s c) := by
  unfold stateBeginValue
  split_ifs
  · exact stepOk_inside _ _ _ (by simp) h
  · exact stepOk_pushParseState ⟨.stateBeginStringOrEmpty, s.endTop, s.parseState, s.err⟩ c
      .parseObjectKey .scanBeginObject h.1 (by simp) (by simp)
  · exact stepOk_pushParseState ⟨.stateBeginValueOrEmpty, s.endTop, s.parseState, s.err⟩ c
      .parseArrayValue .scanBeginArray h.1 (by simp) (by simp)
  · exact stepOk_goto s _ _ h (by simp) (by simp)
  · exact stepOk_goto s _ _ h (by simp) (by simp)
  · exact stepOk_goto s _ _ h (by simp) (by simp)
  · exact stepOk_goto s _ _ h (by simp) (by simp)
  · exact stepOk_goto s _ _ h (by simp) (by simp)
  · exact stepOk_goto s _ _ h (by simp) (by simp)
  · exact stepOk_goto s _ _ h (by simp) (by simp)
  · exact stepOk_error _ _ _ _

theorem stepOk_state0 (s : Scanner) (c : Char) (h : LoopInv s) :
    StepOk s.parseState (state0 s c) := by
  unfold state0
  split_ifs
  all_goals first
    | exact stepOk_stateEndValue s c h.1
    | exact stepOk_goto s _ _ h (by simp) (by simp)

/-- One step of the scanner from a state of the loop. -/
theorem stepOk_run (s : Scanner) (c : Char) (h : LoopInv s) :
    StepOk s.parseState (s.run c) := by
  unfold Scanner.run
  split
  · exact stepOk_stateBeginValue s c h
  · unfold stateBeginValueOrEmpty
    split_ifs
    · exact stepOk_inside _ _ _ (by simp) h
    · exact stepOk_stateEndValue s c h.1
    · exact stepOk_stateBeginValue s c h
  · next hs =>
    unfold stateBeginStringOrEmpty stateBeginString
    split_ifs
    · exact stepOk_inside _ _ _ (by simp) h
    · exact stepOk_of_cons _ _ _ _
        (stepOk_stateEndValue { s with parseState := .parseObjectValue :: s.parseState.tail } c
          h.1)
    · exact stepOk_goto s _ _ h (by simp) (by simp)
    · exact stepOk_error _ _ _ _
  · unfold stateBeginString
    split_ifs
    · exact stepOk_inside _ _ _ (by simp) h
    · exact stepOk_goto s _ _ h (by simp) (by simp)
    · exact stepOk_error _ _ _ _
  · exact stepOk_stateEndValue s c h.1
  · next hs => exact absurd hs h.2.1
  rotate_right
  · next hs => exact Or.inl rfl
  all_goals first
    | exact stepOk_state0 s c h
    | skip
  all_goals
    simp only [stateInString, stateInStringEsc, stateHexDigit, stateNeg, state1, stateDot,
      stateDot0, stateE, stateESign, stateE0, stateLiteral]
    split_ifs
    all_goals first
      | exact stepOk_error _ _ _ _
      | exact stepOk_stateEndValue s c h.1
      | exact stepOk_state0 s c h
      | exact stepOk_inside _ _ _ (by simp) h
      | exact stepOk_goto s _ _ h (by simp) (by simp)

theorem stateEndValue_scanEnd (s : Scanner) (c : Char)
    (h : (stateEndValue s c).2 = .scanEnd) : s.parseState = [] := by
  obtain ⟨step, endTop, ps, err⟩ := s
  rcases ps with _ | ⟨p, rest⟩
  · rfl
  · exfalso
    cases p <;> simp only [stateEndValue, Scanner.error] at h <;> split_ifs at h

theorem pushParseState_ne_scanEnd (s : Scanner) (c : Char) (p : ParseState) (code : ScanCode)
    (hcode : code ≠ .scanEnd) : (s.pushParseState c p code).2 ≠ .scanEnd := by
  unfold Scanner.pushParseState
  simp only
  split_ifs
  · exact hcode
  · simp [Scanner.error]

set_option maxHeartbeats 1000000 in
theorem stateBeginValue_ne_scanEnd (s : Scanner) (c : Char) :
    (stateBeginValue s c).2 ≠ .scanEnd := by
  unfold stateBeginValue
  split_ifs
  · simp
  · exact pushParseState_ne_scanEnd _ _ _ _ (by simp)
  · exact pushParseState_ne_scanEnd _ _ _ _ (by simp)
  all_goals simp [Scanner.error]

set_option maxHeartbeats 1000000 in
/-- When a byte shows the loop that the top-level value has ended, a space in
its place shows it too. -/
theorem endTop_on_space (s : Scanner) (c : Char) (h : LoopInv s)
    (hend : (s.run c).2 = .scanEnd) : (s.run ' ').1.endTop = true := by
  obtain ⟨step, endTop, ps, err⟩ := s
  obtain ⟨-, hstep, hps⟩ := h
  simp only at hstep hps
  have hdg : isDigit ' ' = false := by decide
  have hsp : isSpace ' ' = true := by decide
  cases step <;>
    simp only [Scanner.run, stateBeginValueOrEmpty, stateBeginStringOrEmpty,
      stateBeginString, stateInString, stateInStringEsc, stateHexDigit, stateNeg, state1,
      state0, stateDot, stateDot0, stateE, stateESign, stateE0, stateLiteral, Scanner.error,
      stateEndTop] at hend <;>
    first
    | exact absurd rfl hstep
    | exact absurd hend (stateBeginValue_ne_scanEnd _ _)
    | (simp at hend; done)
    | (split_ifs at hend <;> first
        | exact absurd hend (stateBeginValue_ne_scanEnd _ _)
        | (simp at hend; done)
        | (have h0 := stateEndValue_scanEnd _ _ hend
           simp only at h0
           first
           | (simp at h0; done)
           | (exact absurd h0 (hps (Or.inl rfl)))
           | (exact absurd h0 (hps (Or.inr rfl)))
           | (subst h0
              simp [Scanner.run, state1, state0, stateDot0, stateE0, hdg, stateEndValue,
                stateEndTop, hsp])))
    | (have h0 := stateEndValue_scanEnd _ _ hend
       simp only at h0
       subst h0
       simp [Scanner.run, stateEndValue, stateEndTop, hsp])

theorem stateEndValue_space_code (s : Scanner) (h : s.parseState = []) :
    (stateEndValue s ' ').2 = .scanEnd := by
  have hsp : isSpace ' ' = true := by decide
  simp [stateEndValue, h, stateEndTop, hsp]

theorem stateEndValue_space_same (s : Scanner) (h : s.parseState ≠ [])
    (hstep : s.step = .stateEndValue) : (stateEndValue s ' ').1 = s := by
  have hsp : isSpace ' ' = true := by decide
  obtain ⟨step, endTop, ps, err⟩ := s
  simp only at h hstep
  subst hstep
  rcases ps with _ | ⟨p, rest⟩
  · exact absurd rfl h
  · simp [stateEndValue, hsp]

theorem checkValidFrom_nil (s : Scanner) (herr : s.err = none)
    (h : s.endTop = true ∨ (s.run ' ').1.endTop = true) : checkValidFrom s [] = none := by
  unfold checkValidFrom Scanner.eof
  simp only [herr, Option.isSome_none, Bool.false_eq_true, if_false]
  by_cases h1 : s.endTop = true
  · simp [h1]
  · have h2 : (s.run ' ').1.endTop = true := by
      rcases h with h | h
      · exact absurd h h1
      · exact h
    simp [h1, h2]

theorem checkValidFrom_cons (s : Scanner) (c : Char) (l : List Char)
    (h : (s.run c).2 ≠ .scanError) :
    checkValidFrom s (c :: l) = checkValidFrom (s.run c).1 l := by
  simp [checkValidFrom, h]

/-- The step of the loop of `readValue` after the end of an object or
array. -/
theorem readValueFrom_after_end (buf rest : List Char) (s : Scanner) (c : Char) (n m : Nat)
    (ih : ∀ (s : Scanner) (n m : Nat), LoopInv s → readValueFrom buf s n rest = .ok m →
      ∃ k, m = n + k ∧ checkValidFrom s (rest.take k) = none)
    (hinv : LoopInv s)
    (hcode : (s.run c).2 = .scanEndObject ∨ (s.run c).2 = .scanEndArray)
    (h : (if (stateEndValue (s.run c).1 ' ').2 = .scanEnd then Except.ok (n + 1)
      else readValueFrom buf (stateEndValue (s.run c).1 ' ').1 (n + 1) rest) = .ok m) :
    ∃ k, m = n + k ∧ checkValidFrom s ((c :: rest).take k) = none := by
  have hne : (s.run c).2 ≠ .scanError := by
    rcases hcode with hc | hc <;> rw [hc] <;> simp
  have hfacts : (s.run c).1.err = none ∧
      (((s.run c).1.parseState = [] ∧ (s.run c).1.endTop = true) ∨
        ((s.run c).1.parseState ≠ [] ∧ (s.run c).1.step = .stateEndValue)) := by
    rcases stepOk_run s c hinv with h1 | h1 | h1 | h1
    · exact absurd h1 hne
    · rcases hcode with hc | hc <;> rw [hc] at h1 <;> simp at h1
    · exact h1.2
    · rcases hcode with hc | hc
      · exact absurd hc h1.2.2.1
      · exact absurd hc h1.2.2.2.1
  obtain ⟨herr, hcases⟩ := hfacts
  rcases hcases with ⟨hps, htop⟩ | ⟨hps, hst⟩
  · rw [if_pos (stateEndValue_space_code _ hps)] at h
    refine ⟨1, (Except.ok.inj h).symm, ?_⟩
    rw [List.take_succ_cons, List.take_zero, checkValidFrom_cons s c [] hne]
    exact checkValidFrom_nil _ herr (Or.inl htop)
  · have hnot : (stateEndValue (s.run c).1 ' ').2 ≠ .scanEnd := by
      intro hc
      exact hps (stateEndValue_scanEnd _ _ hc)
    rw [if_neg hnot, stateEndValue_space_same _ hps hst] at h
    have hinv1 : LoopInv (s.run c).1 := by
      refine ⟨herr, ?_, ?_⟩
      · rw [hst]; simp
      · rw [hst]; simp
    obtain ⟨k, hk, hv⟩ := ih _ _ _ hinv1 h
    refine ⟨k + 1, by omega, ?_⟩
    rw [List.take_succ_cons, checkValidFrom_cons s c _ hne]
    exact hv

/-- The loop of `readValue` returns a length only when the bytes it has
scanned up to there are one valid JSON value. -/
theorem readValueFrom_ok (buf : List Char) :
    ∀ (rest : List Char) (s : Scanner) (n m : Nat), LoopInv s →
      readValueFrom buf s n rest = .ok m →
      ∃ k, m = n + k ∧ checkValidFrom s (rest.take k) = none := by
  intro rest
  induction rest with
  | nil =>
    intro s n m hinv h
    unfold readValueFrom at h
    split_ifs at h with h1
    · refine ⟨0, ?_, ?_⟩
      · simpa using (Except.ok.inj h).symm
      · exact checkValidFrom_nil s hinv.1 (Or.inr (endTop_on_space s ' ' hinv h1))
  | cons c rest ih =>
    intro s n m hinv h
    have hstep := stepOk_run s c hinv
    unfold readValueFrom at h
    simp only at h
    split at h
    · next hcode =>
      refine ⟨0, ?_, ?_⟩
      · simpa using (Except.ok.inj h).symm
      · exact checkValidFrom_nil s hinv.1 (Or.inr (endTop_on_space s c hinv hcode))
    · next hcode => exact readValueFrom_after_end buf rest s c n m ih hinv (Or.inl hcode) h
    · next hcode => exact readValueFrom_after_end buf rest s c n m ih hinv (Or.inr hcode) h
    · cases h
    · next hne1 hne2 hne3 hne4 =>
      have hinv1 : LoopInv (s.run c).1 := by
        rcases hstep with h1 | h1 | h1 | h1
        · exact absurd h1 hne4
        · exact absurd h1.1 hne1
        · rcases h1.1 with hc | hc
          · exact absurd hc hne2
          · exact absurd hc hne3
        · exact h1.2.2.2.2
      obtain ⟨k, hk, hv⟩ := ih _ _ _ hinv1 h
      refine ⟨k + 1, by omega, ?_⟩
      rw [List.take_succ_cons, checkValidFrom_cons s c _ hne4]
      exact hv

/-- The value `readValue` returns is a prefix of the content and is valid
JSON. -/
theorem readValue_ok_valid (content v : String) (h : readValue content = .ok v) :
    valid v = true ∧ ∃ n, v = String.mk (content.data.take n) := by
  unfold readValue at h
  split at h
  · next n hn =>
    have hv : v = String.mk (content.data.take n) := (Except.ok.inj h).symm
    have hinv : LoopInv Scanner.reset := by
      refine ⟨rfl, ?_, ?_⟩ <;> simp [Scanner.reset]
    obtain ⟨k, hk, hval⟩ := readValueFrom_ok content.data content.data Scanner.reset 0 n hinv hn
    have hkn : k = n := by omega
    subst hkn
    refine ⟨?_, k, hv⟩
    rw [hv]
    simp [valid, hval]
  · cases h

/-- A content none of whose prefixes is valid JSON is rejected by
`readValue`. -/
theorem readValue_error_of_no_valid_prefix (content : String)
    (h : ∀ n, valid (String.mk (content.data.take n)) = false) :
    ∃ e, readValue content = .error e := by
  cases hr : readValue content with
  | error e => exact ⟨e, rfl⟩
  | ok v =>
    obtain ⟨hv, n, hn⟩ := readValue_ok_valid content v hr
    rw [hn, h n] at hv
    cases hv

/-! ## The runs of `main`, case by case -/

section Runs

variable {Schema Err Fault : Type}

theorem logLine_of_no_newline (t : String) (h : '\n' ∉ t.data) :
    logLine t = t ++ "\n" ∧ singleLine (t ++ "\n") = true := by
  have hl : t.data.getLast? ≠ some '\n' := by
    intro hc
    exact h (List.mem_of_getLast?_eq_some hc)
  constructor
  · simp [logLine, hl]
  · simp [singleLine, List.count_eq_zero_of_not_mem h]

theorem logLine_ne_empty (t : String) : logLine t ≠ "" := by
  intro hc
  have hd : (logLine t).data = [] := by rw [hc]
  unfold logLine at hd
  by_cases hl : t.data.getLast? = some '\n'
  · rw [if_pos hl] at hd
    simp only [String.data_append, List.append_eq_nil] at hd
    rw [hd.1] at hl
    simp at hl
  · rw [if_neg hl] at hd
    simp [String.data_append] at hd

theorem logLine_starts_with (t : String) : t.data <+: (logLine t).data := by
  simp [logLine]

theorem run_usage (w : World Schema Err Fault) (h : w.args.length ≠ 2) :
    run w = ⟨1, "", "schematic: missing schema file\n", [], [.logFatal]⟩ := by
  simp [run, main, withDefer, Bind.bind, Go.bind, logSetFlags, logFatal, osExit, h, Proc.start,
    logOutput]

theorem run_open_error (w : World Schema Err Fault) (prog path : String)
    (h : w.args = [prog, path]) (e : Err) (ho : w.osOpen path = .error e) :
    run w = ⟨1, "", logLine (w.errText e), [], [.osOpen path, .logFatal]⟩ := by
  simp [run, main, withDefer, Bind.bind, Go.bind, logSetFlags, logFatal, osExit, h, Proc.start,
    logOutput, osOpen, ho, logLine]

theorem run_decode_error (w : World Schema Err Fault) (prog path content : String)
    (h : w.args = [prog, path]) (ho : w.osOpen path = .ok content) (e : Err)
    (hd : decodeContent w content = .err e) :
    run w = ⟨1, "", logLine (w.errText e), [⟨path, content⟩],
      [.osOpen path, .decode, .logFatal]⟩ := by
  simp [run, main, withDefer, Bind.bind, Go.bind, logSetFlags, logFatal, osExit, h, Proc.start,
    logOutput, osOpen, ho, logLine, decoderDecode, call, hd]

theorem run_decode_fault (w : World Schema Err Fault) (prog path content : String)
    (h : w.args = [prog, path]) (ho : w.osOpen path = .ok content) (r : Fault)
    (hd : decodeContent w content = .fault (some r)) :
    run w = ⟨1, "", logLine (w.faultText r), [⟨path, content⟩],
      [.osOpen path, .decode, .logFatal]⟩ := by
  simp [run, main, withDefer, Bind.bind, Go.bind, logSetFlags, logFatal, osExit, h, Proc.start,
    logOutput, osOpen, ho, logLine, decoderDecode, call, hd, recoverAndReport]

theorem run_decode_fault_nil (w : World Schema Err Fault) (prog path content : String)
    (h : w.args = [prog, path]) (ho : w.osOpen path = .ok content)
    (hd : decodeContent w content = .fault none) :
    run w = ⟨0, "", "", [⟨path, content⟩], [.osOpen path, .decode]⟩ := by
  simp [run, main, withDefer, Bind.bind, Go.bind, logSetFlags, h, Proc.start,
    osOpen, ho, Pure.pure, decoderDecode, call, hd, recoverAndReport]

theorem run_generate_error (w : World Schema Err Fault) (prog path content : String)
    (h : w.args = [prog, path]) (ho : w.osOpen path = .ok content) (s : Schema)
    (hd : decodeContent w content = .ok s) (e : Err) (hg : w.generate s = .err e) :
    run w = ⟨1, "", logLine (w.errText e), [⟨path, content⟩],
      [.osOpen path, .decode, .generate, .logFatal]⟩ := by
  simp [run, main, withDefer, Bind.bind, Go.bind, logSetFlags, logFatal, osExit, h, Proc.start,
    logOutput, osOpen, ho, logLine, decoderDecode, call, hd, generate, hg]

theorem run_generate_fault (w : World Schema Err Fault) (prog path content : String)
    (h : w.args = [prog, path]) (ho : w.osOpen path = .ok content) (s : Schema)
    (hd : decodeContent w content = .ok s) (r : Fault)
    (hg : w.generate s = .fault (some r)) :
    run w = ⟨1, "", logLine (w.faultText r), [⟨path, content⟩],
      [.osOpen path, .decode, .generate, .logFatal]⟩ := by
  simp [run, main, withDefer, Bind.bind, Go.bind, logSetFlags, logFatal, osExit, h, Proc.start,
    logOutput, osOpen, ho, logLine, decoderDecode, call, hd, generate, hg, recoverAndReport]

theorem run_generate_fault_nil (w : World Schema Err Fault) (prog path content : String)
    (h : w.args = [prog, path]) (ho : w.osOpen path = .ok content) (s : Schema)
    (hd : decodeContent w content = .ok s) (hg : w.generate s = .fault none) :
    run w = ⟨0, "", "", [⟨path, content⟩], [.osOpen path, .decode, .generate]⟩ := by
  simp [run, main, withDefer, Bind.bind, Go.bind, logSetFlags, h, Proc.start,
    osOpen, ho, Pure.pure, decoderDecode, call, hd, generate, hg, recoverAndReport]

theorem run_success (w : World Schema Err Fault) (prog path content : String)
    (h : w.args = [prog, path]) (ho : w.osOpen path = .ok content) (s : Schema)
    (hd : decodeContent w content = .ok s) (code : String) (hg : w.generate s = .ok code) :
    run w = ⟨0, code ++ "\n", "", [⟨path, content⟩],
      [.osOpen path, .decode, .generate, .println]⟩ := by
  simp [run, main, withDefer, Bind.bind, Go.bind, logSetFlags, osExit, h, Proc.start,
    osOpen, ho, Pure.pure, decoderDecode, call, hd, generate, hg, recoverAndReport, fmtPrintln]

/-- An argument list of length two is a program name and one argument. -/
theorem args_of_length_two (l : List String) (h : l.length = 2) :
    ∃ prog path, l = [prog, path] := by
  match l, h with
  | [a, b], _ => exact ⟨a, b, rfl⟩

/-- The exit status and the standard output of every run are those read off
the world. -/
theorem run_exitAndOutput (w : World Schema Err Fault) :
    ((run w).exitCode, (run w).stdout) = exitAndOutput w := by
  by_cases hlen : w.args.length = 2
  · obtain ⟨prog, path, h⟩ := args_of_length_two w.args hlen
    cases ho : w.osOpen path with
    | error e => simp [run_open_error w prog path h e ho, exitAndOutput, h, ho, Except.toOption]
    | ok content =>
      cases hd : decodeContent w content with
      | err e =>
        rw [run_decode_error w prog path content h ho e hd]
        unfold decodeContent at hd
        simp only [exitAndOutput, h, ho, Except.toOption]
        split at hd
        · next hr => simp [hr]
        · next hr => simp [hr, hd]
      | fault r =>
        cases r with
        | none =>
          rw [run_decode_fault_nil w prog path content h ho hd]
          unfold decodeContent at hd
          simp only [exitAndOutput, h, ho, Except.toOption]
          split at hd
          · cases hd
          · next hr => simp [hr, hd]
        | some r =>
          rw [run_decode_fault w prog path content h ho r hd]
          unfold decodeContent at hd
          simp only [exitAndOutput, h, ho, Except.toOption]
          split at hd
          · cases hd
          · next hr => simp [hr, hd]
      | ok s =>
        have hu : ∃ v, readValue content = .ok v ∧ w.unmarshal v = .ok s := by
          unfold decodeContent at hd
          split at hd
          · cases hd
          · next v hr => exact ⟨v, hr, hd⟩
        obtain ⟨v, hr, hv⟩ := hu
        cases hg : w.generate s with
        | err e =>
          simp [run_generate_error w prog path content h ho s hd e hg, exitAndOutput, h, ho,
            Except.toOption, hr, hv, hg]
        | fault r =>
          cases r with
          | none =>
            simp [run_generate_fault_nil w prog path content h ho s hd hg, exitAndOutput, h, ho,
              Except.toOption, hr, hv, hg]
          | some r =>
            simp [run_generate_fault w prog path content h ho s hd r hg, exitAndOutput, h, ho,
              Except.toOption, hr, hv, hg]
        | ok code =>
          simp [run_success w prog path content h ho s hd code hg, exitAndOutput, h, ho,
            Except.toOption, hr, hv, hg]
  · have hg : exitAndOutput w = (1, "") := by
      unfold exitAndOutput
      split
      · next heq => simp [heq] at hlen
      · rfl
    simp [run_usage w hlen, hg]

end Runs

/-! ## The claims -/

section Claims

variable {Schema Err Fault : Type}

/-- C1: when the argument list without the program name does not have exactly
one element, the process ends with a non-zero status, standard error holds
exactly the line `schematic: missing schema file`, standard output is empty,
and no file is opened. -/
theorem usage_error_on_wrong_arity (w : World Schema Err Fault)
    (h : w.args.tail.length ≠ 1) :
    (run w).exitCode ≠ 0 ∧
      (run w).stderr = "schematic: missing schema file\n" ∧
      singleLine (run w).stderr = true ∧
      (run w).stdout = "" ∧
      (∀ name, Call.osOpen name ∉ (run w).trace) ∧
      (run w).openFiles = [] := by
  have hlen : w.args.length ≠ 2 := by
    intro hc
    apply h
    rw [List.length_tail, hc]
  rw [run_usage w hlen]
  refine ⟨Nat.one_ne_zero, rfl, by decide, rfl, ?_, rfl⟩
  intro name
  simp

/-- C1 at a run without an argument. -/
theorem usage_error_on_wrong_arity_witness :
    worldNoArgument.args.tail.length ≠ 1 ∧
      (run worldNoArgument).exitCode ≠ 0 ∧
      (run worldNoArgument).stderr = "schematic: missing schema file\n" ∧
      singleLine (run worldNoArgument).stderr = true ∧
      (run worldNoArgument).stdout = "" ∧
      (∀ name, Call.osOpen name ∉ (run worldNoArgument).trace) ∧
      (run worldNoArgument).openFiles = [] :=
  ⟨by decide, usage_error_on_wrong_arity worldNoArgument (by decide)⟩

/-- C2: with exactly one argument, a file that opens, a decoder that returns
a schema and a generator that returns the bytes `b`, the process ends with
status 0, standard output is `b` followed by one newline and nothing else,
and standard error is empty. -/
theorem happy_path_prints_code (w : World Schema Err Fault) (prog path content : String)
    (s : Schema) (b : String)
    (hargs : w.args = [prog, path])
    (hopen : w.osOpen path = .ok content)
    (hdecode : decodeContent w content = .ok s)
    (hgen : w.generate s = .ok b) :
    (run w).exitCode = 0 ∧ (run w).stdout = b ++ "\n" ∧ (run w).stderr = "" := by
  rw [run_success w prog path content hargs hopen s hdecode b hgen]
  exact ⟨rfl, rfl, rfl⟩

/-- C2 at the world in which every step succeeds. -/
theorem happy_path_prints_code_witness :
    worldOk.args = ["schematic", "schema.json"] ∧
      worldOk.osOpen "schema.json" = .ok "\x7b\x7d\n" ∧
      decodeContent worldOk "\x7b\x7d\n" = .ok () ∧
      worldOk.generate () = .ok "package main" ∧
      (run worldOk).exitCode = 0 ∧
      (run worldOk).stdout = "package main" ++ "\n" ∧
      (run worldOk).stderr = "" :=
  ⟨rfl, rfl, rfl, rfl,
    happy_path_prints_code worldOk "schematic" "schema.json" "\x7b\x7d\n" () "package main"
      rfl rfl rfl rfl⟩

/-- C5: with exactly one argument and an `os.Open` that fails with the error
`e`, the process ends with a non-zero status, standard error is the text of
`e` with nothing in front of it (closed by a newline when the text does not
end in one), standard output is empty, and neither the decoder nor `Generate`
is called. -/
theorem open_failure_reported (w : World Schema Err Fault) (prog path : String) (e : Err)
    (hargs : w.args = [prog, path])
    (hopen : w.osOpen path = .error e) :
    (run w).exitCode ≠ 0 ∧
      (run w).stderr =
        w.errText e ++ (if (w.errText e).data.getLast? = some '\n' then "" else "\n") ∧
      (run w).stdout = "" ∧
      Call.decode ∉ (run w).trace ∧
      Call.generate ∉ (run w).trace := by
  rw [run_open_error w prog path hargs e hopen]
  refine ⟨Nat.one_ne_zero, rfl, rfl, ?_, ?_⟩ <;> simp

/-- C5 at a run that names a file that does not exist. -/
theorem open_failure_reported_witness :
    worldNoFile.args = ["schematic", "schema.json"] ∧
      worldNoFile.osOpen "schema.json"
        = .error "open schema.json: no such file or directory" ∧
      (run worldNoFile).exitCode ≠ 0 ∧
      (run worldNoFile).stderr = "open schema.json: no such file or directory\n" ∧
      (run worldNoFile).stdout = "" ∧
      Call.decode ∉ (run worldNoFile).trace ∧
      Call.generate ∉ (run worldNoFile).trace :=
  ⟨rfl, rfl,
    open_failure_reported worldNoFile "schematic" "schema.json"
      "open schema.json: no such file or directory" rfl rfl⟩

/-- C3, as stated, fails: a generator error whose text has two lines is
written to standard error as two lines. -/
theorem generate_error_two_lines :
    worldGenerateError.args = ["schematic", "schema.json"] ∧
      worldGenerateError.osOpen "schema.json" = .ok "\x7b\x7d\n" ∧
      decodeContent worldGenerateError "\x7b\x7d\n" = .ok () ∧
      worldGenerateError.generate () = .err "schema: no title\nschema: no properties" ∧
      worldGenerateError.errText "schema: no title\nschema: no properties"
        = "schema: no title\nschema: no properties" ∧
      (run worldGenerateError).stderr = "schema: no title\nschema: no properties\n" ∧
      singleLine (run worldGenerateError).stderr = false :=
  ⟨rfl, rfl, rfl, rfl, rfl, by decide, by decide⟩

/-- C3, amended: when the file opens and decodes and `Generate` returns the
error `e`, the process ends with a non-zero status, standard error is the
text of `e` with nothing in front of it and nothing added but a closing
newline when the text does not end in one, which is a single line when the
text holds no newline, and standard output is empty. -/
theorem generate_error_reported (w : World Schema Err Fault) (prog path content : String)
    (s : Schema) (e : Err)
    (hargs : w.args = [prog, path])
    (hopen : w.osOpen path = .ok content)
    (hdecode : decodeContent w content = .ok s)
    (hgen : w.generate s = .err e) :
    (run w).exitCode ≠ 0 ∧
      (run w).stderr =
        w.errText e ++ (if (w.errText e).data.getLast? = some '\n' then "" else "\n") ∧
      ('\n' ∉ (w.errText e).data →
        (run w).stderr = w.errText e ++ "\n" ∧ singleLine (run w).stderr = true) ∧
      (run w).stdout = "" := by
  rw [run_generate_error w prog path content hargs hopen s hdecode e hgen]
  refine ⟨Nat.one_ne_zero, rfl, ?_, rfl⟩
  intro hnl
  have h := logLine_of_no_newline (w.errText e) hnl
  simp only [h.1]
  exact ⟨trivial, h.2⟩

/-- C3, amended, at a generator error of one line. -/
theorem generate_error_reported_witness :
    worldGenerateErrorOneLine.args = ["schematic", "schema.json"] ∧
      worldGenerateErrorOneLine.osOpen "schema.json" = .ok "\x7b\x7d\n" ∧
      decodeContent worldGenerateErrorOneLine "\x7b\x7d\n" = .ok () ∧
      worldGenerateErrorOneLine.generate () = .err "schema: no title" ∧
      (run worldGenerateErrorOneLine).exitCode ≠ 0 ∧
      (run worldGenerateErrorOneLine).stderr = "schema: no title\n" ∧
      ('\n' ∉ "schema: no title".data →
        (run worldGenerateErrorOneLine).stderr = "schema: no title" ++ "\n" ∧
          singleLine (run worldGenerateErrorOneLine).stderr = true) ∧
      (run worldGenerateErrorOneLine).stdout = "" :=
  ⟨rfl, rfl, rfl, rfl,
    generate_error_reported worldGenerateErrorOneLine "schematic" "schema.json" "\x7b\x7d\n" ()
      "schema: no title" rfl rfl rfl rfl⟩

/-- C4, as stated, fails: a file that holds a valid JSON value followed by
text that is not JSON is not valid JSON, yet the decoder returns the first
value, `Generate` is called and the process ends with status 0. -/
theorem trailing_text_is_decoded :
    worldTrailingText.args = ["schematic", "schema.json"] ∧
      worldTrailingText.osOpen "schema.json" = .ok "\x7b\x7d this is not JSON" ∧
      valid "\x7b\x7d this is not JSON" = false ∧
      readValue "\x7b\x7d this is not JSON" = .ok "\x7b\x7d" ∧
      (run worldTrailingText).exitCode = 0 ∧
      Call.generate ∈ (run worldTrailingText).trace ∧
      (run worldTrailingText).stderr = "" ∧
      (run worldTrailingText).stdout = "package main\n" :=
  ⟨rfl, rfl, by decide, rfl, by decide, by decide, by decide, by decide⟩

/-- C4, amended: when the file opens and no prefix of its content is valid
JSON (the content is truncated or malformed before a first JSON value is
complete; the whole content is one of its prefixes), the decoder returns an
error, the process ends with a non-zero status, standard error holds the text
of that error (it starts with it), standard output is empty and `Generate` is
not called. -/
theorem decode_failure_reported (w : World Schema Err Fault) (prog path content : String)
    (hargs : w.args = [prog, path])
    (hopen : w.osOpen path = .ok content)
    (hinvalid : ∀ n, valid (String.mk (content.data.take n)) = false) :
    valid content = false ∧
      ∃ e, decodeContent w content = .err e ∧
        (run w).exitCode ≠ 0 ∧
        (w.errText e).data <:+: (run w).stderr.data ∧
        (w.errText e).data <+: (run w).stderr.data ∧
        (run w).stdout = "" ∧
        Call.generate ∉ (run w).trace := by
  constructor
  · have h := hinvalid content.data.length
    rw [List.take_length] at h
    exact h
  · obtain ⟨r, hr⟩ := readValue_error_of_no_valid_prefix content hinvalid
    have hd : decodeContent w content = .err (w.readErr r) := by
      simp [decodeContent, hr]
    refine ⟨w.readErr r, hd, ?_⟩
    rw [run_decode_error w prog path content hargs hopen _ hd]
    refine ⟨Nat.one_ne_zero, (logLine_starts_with _).isInfix, logLine_starts_with _, rfl, ?_⟩
    simp

/-- No prefix of a file that stops in the middle of an object is valid
JSON. -/
theorem truncated_no_valid_prefix :
    ∀ n, valid (String.mk ("\x7b\"title\": ".data.take n)) = false := by
  intro n
  by_cases h : n < 10
  · interval_cases n <;> decide
  · have hlen : "\x7b\"title\": ".data.length ≤ n := by
      have : "\x7b\"title\": ".data.length = 10 := by decide
      omega
    rw [List.take_of_length_le hlen]
    decide

/-- C4, amended, at a file that stops in the middle of an object. -/
theorem decode_failure_reported_witness :
    worldTruncated.args = ["schematic", "schema.json"] ∧
      worldTruncated.osOpen "schema.json" = .ok "\x7b\"title\": " ∧
      (∀ n, valid (String.mk ("\x7b\"title\": ".data.take n)) = false) ∧
      valid "\x7b\"title\": " = false ∧
      ∃ e, decodeContent worldTruncated "\x7b\"title\": " = .err e ∧
        (run worldTruncated).exitCode ≠ 0 ∧
        (worldTruncated.errText e).data <:+: (run worldTruncated).stderr.data ∧
        (worldTruncated.errText e).data <+: (run worldTruncated).stderr.data ∧
        (run worldTruncated).stdout = "" ∧
        Call.generate ∉ (run worldTruncated).trace :=
  ⟨rfl, rfl, truncated_no_valid_prefix,
    decode_failure_reported worldTruncated "schematic" "schema.json" "\x7b\"title\": "
      rfl rfl truncated_no_valid_prefix⟩

/-- C6, as stated, fails twice: a panic whose value has a text of two lines
is reported on two lines, and a panic whose value is nil is recovered without
a diagnostic and the process ends with status 0. -/
theorem panic_not_one_line_or_not_reported :
    (worldGeneratePanic.args = ["schematic", "schema.json"] ∧
      worldGeneratePanic.osOpen "schema.json" = .ok "\x7b\x7d\n" ∧
      decodeContent worldGeneratePanic "\x7b\x7d\n" = .ok () ∧
      worldGeneratePanic.generate () = .fault (some "template: bad input\nat line 3") ∧
      worldGeneratePanic.faultText "template: bad input\nat line 3"
        = "template: bad input\nat line 3" ∧
      (run worldGeneratePanic).stderr = "template: bad input\nat line 3\n" ∧
      singleLine (run worldGeneratePanic).stderr = false) ∧
    (worldGeneratePanicNil.args = ["schematic", "schema.json"] ∧
      worldGeneratePanicNil.osOpen "schema.json" = .ok "\x7b\x7d\n" ∧
      decodeContent worldGeneratePanicNil "\x7b\x7d\n" = .ok () ∧
      worldGeneratePanicNil.generate () = .fault none ∧
      (run worldGeneratePanicNil).exitCode = 0 ∧
      (run worldGeneratePanicNil).stderr = "") :=
  ⟨⟨rfl, rfl, rfl, rfl, rfl, by decide, by decide⟩, rfl, rfl, rfl, rfl, by decide, by decide⟩

/-- C6, amended: when the decoder or `Generate` panics with a value `r` that
is not nil, `main` recovers it and the process ends with status 1; standard
error is the text of `r` and nothing else (no crash report, no stack trace),
closed by a newline when the text does not end in one, which is a single line
when the text holds no newline; standard output is empty. -/
theorem panic_recovered_and_reported (w : World Schema Err Fault)
    (prog path content : String) (r : Fault)
    (hargs : w.args = [prog, path])
    (hopen : w.osOpen path = .ok content)
    (hpanic : decodeContent w content = .fault (some r) ∨
      ∃ s, decodeContent w content = .ok s ∧ w.generate s = .fault (some r)) :
    (run w).exitCode = 1 ∧
      (run w).stderr =
        w.faultText r ++ (if (w.faultText r).data.getLast? = some '\n' then "" else "\n") ∧
      ('\n' ∉ (w.faultText r).data →
        (run w).stderr = w.faultText r ++ "\n" ∧ singleLine (run w).stderr = true) ∧
      (run w).stdout = "" := by
  have hrun : ∃ t, run w = ⟨1, "", logLine (w.faultText r), [⟨path, content⟩], t⟩ := by
    rcases hpanic with hd | ⟨s, hd, hg⟩
    · exact ⟨_, run_decode_fault w prog path content hargs hopen r hd⟩
    · exact ⟨_, run_generate_fault w prog path content hargs hopen s hd r hg⟩
  obtain ⟨t, ht⟩ := hrun
  rw [ht]
  refine ⟨rfl, rfl, ?_, rfl⟩
  intro hnl
  have h := logLine_of_no_newline (w.faultText r) hnl
  simp only [h.1]
  exact ⟨trivial, h.2⟩

/-- C6, amended, at a generator that panics with a runtime error. -/
theorem panic_recovered_and_reported_witness :
    worldGenerateRuntimeError.args = ["schematic", "schema.json"] ∧
      worldGenerateRuntimeError.osOpen "schema.json" = .ok "\x7b\x7d\n" ∧
      decodeContent worldGenerateRuntimeError "\x7b\x7d\n" = .ok () ∧
      worldGenerateRuntimeError.generate ()
        = .fault (some "runtime error: index out of range [5] with length 3") ∧
      (run worldGenerateRuntimeError).exitCode = 1 ∧
      (run worldGenerateRuntimeError).stderr
        = "runtime error: index out of range [5] with length 3\n" ∧
      ('\n' ∉ "runtime error: index out of range [5] with length 3".data →
        (run worldGenerateRuntimeError).stderr
            = "runtime error: index out of range [5] with length 3" ++ "\n" ∧
          singleLine (run worldGenerateRuntimeError).stderr = true) ∧
      (run worldGenerateRuntimeError).stdout = "" :=
  ⟨rfl, rfl, rfl, rfl,
    panic_recovered_and_reported worldGenerateRuntimeError "schematic" "schema.json"
      "\x7b\x7d\n" "runtime error: index out of range [5] with length 3" rfl rfl
      (Or.inr ⟨(), rfl, rfl⟩)⟩

/-- C7, as stated, fails: at the end of a successful run the file that was
opened is still open. -/
theorem file_still_open_at_exit :
    worldOk.args = ["schematic", "schema.json"] ∧
      worldOk.osOpen "schema.json" = .ok "\x7b\x7d\n" ∧
      (run worldOk).exitCode = 0 ∧
      (⟨"schema.json", "\x7b\x7d\n"⟩ : File) ∈ (run worldOk).openFiles :=
  ⟨rfl, rfl, by decide, by decide⟩

/-- C7, amended: `main` never closes the file; on every exit path reached
after the schema file was opened (success, decode error, generation error,
recovered panic) the file is still open when the process ends, and its
release is left to the end of the process. -/
theorem file_never_closed (w : World Schema Err Fault) (prog path content : String)
    (hargs : w.args = [prog, path])
    (hopen : w.osOpen path = .ok content) :
    (run w).openFiles = [⟨path, content⟩] := by
  cases hd : decodeContent w content with
  | err e => rw [run_decode_error w prog path content hargs hopen e hd]
  | fault r =>
    cases r with
    | none => rw [run_decode_fault_nil w prog path content hargs hopen hd]
    | some r => rw [run_decode_fault w prog path content hargs hopen r hd]
  | ok s =>
    cases hg : w.generate s with
    | err e => rw [run_generate_error w prog path content hargs hopen s hd e hg]
    | fault r =>
      cases r with
      | none => rw [run_generate_fault_nil w prog path content hargs hopen s hd hg]
      | some r => rw [run_generate_fault w prog path content hargs hopen s hd r hg]
    | ok code => rw [run_success w prog path content hargs hopen s hd code hg]

/-- C7, amended, at a run whose file is truncated. -/
theorem file_never_closed_witness :
    worldTruncated.args = ["schematic", "schema.json"] ∧
      worldTruncated.osOpen "schema.json" = .ok "\x7b\"title\": " ∧
      (run worldTruncated).openFiles = [⟨"schema.json", "\x7b\"title\": "⟩] :=
  ⟨rfl, rfl,
    file_never_closed worldTruncated "schematic" "schema.json" "\x7b\"title\": " rfl rfl⟩

/-- C8, as stated, fails: a decoder that panics with a nil value is a step
that fails, yet nothing is written to standard error and the process ends
with status 0. -/
theorem nil_panic_writes_no_diagnostic :
    worldDecodePanicNil.args = ["schematic", "schema.json"] ∧
      worldDecodePanicNil.osOpen "schema.json" = .ok "\x7b\x7d\n" ∧
      decodeContent worldDecodePanicNil "\x7b\x7d\n" = .fault none ∧
      (run worldDecodePanicNil).trace = [.osOpen "schema.json", .decode] ∧
      (run worldDecodePanicNil).stderr = "" ∧
      (run worldDecodePanicNil).exitCode = 0 :=
  ⟨rfl, rfl, rfl, by decide, by decide, by decide⟩

/-- C8, amended: the pipeline is fail-fast and the first failure wins.  In
every run the steps are taken in the order open, decode, generate, print,
after the argument check; a run that ends with a non-zero status wrote one
diagnostic, as the last thing it did; a run that does not reach the print
step wrote nothing to standard output; and the first step that fails by
returning an error or by panicking with a value that is not nil fixes that
diagnostic and is the last step taken. -/
theorem fail_fast_first_failure_wins (w : World Schema Err Fault) :
    (run w).trace.filter (fun c => c ≠ Call.logFatal)
        <+: [.osOpen (w.args.getD 1 ""), .decode, .generate, .println] ∧
      ((run w).exitCode ≠ 0 →
        (run w).trace.count .logFatal = 1 ∧
          (run w).trace.getLast? = some .logFatal ∧
          (run w).stdout = "" ∧
          Call.println ∉ (run w).trace) ∧
      (Call.println ∉ (run w).trace → (run w).stdout = "") ∧
      (w.args.length ≠ 2 →
        (run w).exitCode ≠ 0 ∧
          (run w).trace = [.logFatal] ∧
          (run w).stderr = logLine "schematic: missing schema file") ∧
      (∀ prog path, w.args = [prog, path] →
        (∀ e, w.osOpen path = .error e →
          (run w).exitCode ≠ 0 ∧
            (run w).trace = [.osOpen path, .logFatal] ∧
            (run w).stderr = logLine (w.errText e)) ∧
        (∀ content, w.osOpen path = .ok content →
          (∀ e, decodeContent w content = .err e →
            (run w).exitCode ≠ 0 ∧
              (run w).trace = [.osOpen path, .decode, .logFatal] ∧
              (run w).stderr = logLine (w.errText e)) ∧
          (∀ r, decodeContent w content = .fault (some r) →
            (run w).exitCode ≠ 0 ∧
              (run w).trace = [.osOpen path, .decode, .logFatal] ∧
              (run w).stderr = logLine (w.faultText r)) ∧
          (∀ s, decodeContent w content = .ok s →
            (∀ e, w.generate s = .err e →
              (run w).exitCode ≠ 0 ∧
                (run w).trace = [.osOpen path, .decode, .generate, .logFatal] ∧
                (run w).stderr = logLine (w.errText e)) ∧
            (∀ r, w.generate s = .fault (some r) →
              (run w).exitCode ≠ 0 ∧
                (run w).trace = [.osOpen path, .decode, .generate, .logFatal] ∧
                (run w).stderr = logLine (w.faultText r)) ∧
            (∀ code, w.generate s = .ok code →
              (run w).exitCode = 0 ∧
                (run w).trace = [.osOpen path, .decode, .generate, .println] ∧
                (run w).stderr = "" ∧
                (run w).stdout = code ++ "\n")))) := by
  have hall : (run w).trace.filter (fun c => c ≠ Call.logFatal)
        <+: [.osOpen (w.args.getD 1 ""), .decode, .generate, .println] ∧
      ((run w).exitCode ≠ 0 →
        (run w).trace.count .logFatal = 1 ∧
          (run w).trace.getLast? = some .logFatal ∧
          (run w).stdout = "" ∧
          Call.println ∉ (run w).trace) ∧
      (Call.println ∉ (run w).trace → (run w).stdout = "") := by
    by_cases hlen : w.args.length = 2
    · obtain ⟨prog, path, h⟩ := args_of_length_two w.args hlen
      cases ho : w.osOpen path with
      | error e => simp [run_open_error w prog path h e ho, h, List.prefix_cons_inj]
      | ok content =>
        cases hd : decodeContent w content with
        | err e => simp [run_decode_error w prog path content h ho e hd, h, List.prefix_cons_inj]
        | fault r =>
          cases r with
          | none =>
            simp [run_decode_fault_nil w prog path content h ho hd, h, List.prefix_cons_inj]
          | some r =>
            simp [run_decode_fault w prog path content h ho r hd, h, List.prefix_cons_inj]
        | ok s =>
          cases hg : w.generate s with
          | err e =>
            simp [run_generate_error w prog path content h ho s hd e hg, h,
              List.prefix_cons_inj]
          | fault r =>
            cases r with
            | none =>
              simp [run_generate_fault_nil w prog path content h ho s hd hg, h,
                List.prefix_cons_inj]
            | some r =>
              simp [run_generate_fault w prog path content h ho s hd r hg, h,
                List.prefix_cons_inj]
          | ok code => simp [run_success w prog path content h ho s hd code hg, h]
    · simp [run_usage w hlen]
  refine ⟨hall.1, hall.2.1, hall.2.2, ?_, ?_⟩
  · intro hlen
    rw [run_usage w hlen]
    exact ⟨Nat.one_ne_zero, rfl, by decide⟩
  · intro prog path h
    refine ⟨?_, ?_⟩
    · intro e ho
      rw [run_open_error w prog path h e ho]
      exact ⟨Nat.one_ne_zero, rfl, rfl⟩
    · intro content ho
      refine ⟨?_, ?_, ?_⟩
      · intro e hd
        rw [run_decode_error w prog path content h ho e hd]
        exact ⟨Nat.one_ne_zero, rfl, rfl⟩
      · intro r hd
        rw [run_decode_fault w prog path content h ho r hd]
        exact ⟨Nat.one_ne_zero, rfl, rfl⟩
      · intro s hd
        refine ⟨?_, ?_, ?_⟩
        · intro e hg
          rw [run_generate_error w prog path content h ho s hd e hg]
          exact ⟨Nat.one_ne_zero, rfl, rfl⟩
        · intro r hg
          rw [run_generate_fault w prog path content h ho s hd r hg]
          exact ⟨Nat.one_ne_zero, rfl, rfl⟩
        · intro code hg
          rw [run_success w prog path content h ho s hd code hg]
          exact ⟨rfl, rfl, rfl, rfl⟩

/-- C9: two runs with the same argument list and the same files, whose
decoders and generators are the same functions of their inputs, write the
same bytes to standard output and end with the same exit status. -/
theorem deterministic_output (w1 w2 : World Schema Err Fault)
    (hargs : w1.args = w2.args)
    (hfile : ∀ name, (w1.osOpen name).toOption = (w2.osOpen name).toOption)
    (hdecode : w1.unmarshal = w2.unmarshal)
    (hgen : w1.generate = w2.generate) :
    (run w1).stdout = (run w2).stdout ∧ (run w1).exitCode = (run w2).exitCode := by
  have hobs : exitAndOutput w1 = exitAndOutput w2 := by
    simp only [exitAndOutput, hargs, hfile, hdecode, hgen]
  have h1 := run_exitAndOutput w1
  have h2 := run_exitAndOutput w2
  rw [hobs, ← h2] at h1
  have h := Prod.mk.inj h1
  exact ⟨h.2, h.1⟩

/-- C9 at two runs that differ only in the texts of their errors. -/
theorem deterministic_output_witness :
    worldOk.args = worldOkOtherTexts.args ∧
      worldOk.unmarshal = worldOkOtherTexts.unmarshal ∧
      worldOk.generate = worldOkOtherTexts.generate ∧
      (run worldOk).stdout = (run worldOkOtherTexts).stdout ∧
      (run worldOk).exitCode = (run worldOkOtherTexts).exitCode :=
  ⟨rfl, rfl, rfl,
    deterministic_output worldOk worldOkOtherTexts rfl (fun _ => rfl) rfl rfl⟩

/-- C10, as stated, fails: when `Generate` panics with a nil value the
process ends with status 0 although `Generate` did not return, nothing was
printed and standard output is empty. -/
theorem exit_zero_after_nil_panic :
    worldGeneratePanicNil.args = ["schematic", "schema.json"] ∧
      worldGeneratePanicNil.osOpen "schema.json" = .ok "\x7b\x7d\n" ∧
      decodeContent worldGeneratePanicNil "\x7b\x7d\n" = .ok () ∧
      worldGeneratePanicNil.generate () = .fault none ∧
      (run worldGeneratePanicNil).exitCode = 0 ∧
      Call.println ∉ (run worldGeneratePanicNil).trace ∧
      (run worldGeneratePanicNil).stdout = "" :=
  ⟨rfl, rfl, rfl, rfl, by decide, by decide, by decide⟩

/-- C10, amended: in a run in which neither the decoder nor `Generate` panics
with a nil value, the process ends with status 0 exactly when exactly one
argument was given, the file opened, the decoder returned a schema and
`Generate` returned bytes; in every other such run the status is not zero.
Equally, in such a run the status is 0 exactly when the generated code was
printed on standard output and standard error is empty. -/
theorem exit_zero_iff_success (w : World Schema Err Fault) (hnil : ¬ panicsWithNil w) :
    ((run w).exitCode = 0 ↔
        ∃ prog path content s b, w.args = [prog, path] ∧ w.osOpen path = .ok content ∧
          decodeContent w content = .ok s ∧ w.generate s = .ok b) ∧
      ((run w).exitCode = 0 ↔
        (∃ s b, w.generate s = .ok b ∧ (run w).stdout = b ++ "\n" ∧
          Call.println ∈ (run w).trace) ∧ (run w).stderr = "") ∧
      ((run w).exitCode = 0 ↔ Call.println ∈ (run w).trace ∧ (run w).stderr = "") := by
  by_cases hlen : w.args.length = 2
  · obtain ⟨prog, path, h⟩ := args_of_length_two w.args hlen
    cases ho : w.osOpen path with
    | error e =>
      simp [run_open_error w prog path h e ho, h, ho, logLine_ne_empty]
    | ok content =>
      cases hd : decodeContent w content with
      | err e =>
        simp [run_decode_error w prog path content h ho e hd, h, ho, hd, logLine_ne_empty]
      | fault r =>
        cases r with
        | none => exact absurd ⟨prog, path, content, h, ho, Or.inl hd⟩ hnil
        | some r =>
          simp [run_decode_fault w prog path content h ho r hd, h, ho, hd, logLine_ne_empty]
      | ok s =>
        cases hg : w.generate s with
        | err e =>
          simp [run_generate_error w prog path content h ho s hd e hg, h, ho, hd, hg,
            logLine_ne_empty]
        | fault r =>
          cases r with
          | none => exact absurd ⟨prog, path, content, h, ho, Or.inr ⟨s, hd, hg⟩⟩ hnil
          | some r =>
            simp [run_generate_fault w prog path content h ho s hd r hg, h, ho, hd, hg,
              logLine_ne_empty]
        | ok code =>
          simp [run_success w prog path content h ho s hd code hg, h]
          exact ⟨⟨prog, path, ⟨rfl, rfl⟩, content, ho, s, hd, code, hg⟩, s, code, hg, rfl⟩
  · have hne : ∀ prog path, w.args ≠ [prog, path] := by
      intro prog path hc
      apply hlen
      rw [hc]
      rfl
    simp [run_usage w hlen, hne]

/-- In the world in which every step succeeds nothing panics. -/
theorem worldOk_no_nil_panic : ¬ panicsWithNil worldOk := by
  rintro ⟨prog, path, content, -, -, hd | ⟨s, -, hg⟩⟩
  · unfold decodeContent at hd
    split at hd <;> cases hd
  · cases hg

/-- C10, amended, at the world in which every step succeeds. -/
theorem exit_zero_iff_success_witness :
    ¬ panicsWithNil worldOk ∧
      ((run worldOk).exitCode = 0 ↔
        ∃ prog path content s b, worldOk.args = [prog, path] ∧
          worldOk.osOpen path = .ok content ∧
          decodeContent worldOk content = .ok s ∧ worldOk.generate s = .ok b) ∧
      ((run worldOk).exitCode = 0 ↔
        (∃ s b, worldOk.generate s = .ok b ∧ (run worldOk).stdout = b ++ "\n" ∧
          Call.println ∈ (run worldOk).trace) ∧ (run worldOk).stderr = "") ∧
      ((run worldOk).exitCode = 0 ↔
        Call.println ∈ (run worldOk).trace ∧ (run worldOk).stderr = "") :=
  ⟨worldOk_no_nil_panic, exit_zero_iff_success worldOk worldOk_no_nil_panic⟩

end Claims

end Schematic
